import Mathlib

/-!
# Verification of the Amersfoort dog-zones processing pipeline

Shallow embedding of the algorithmic core of `src/app/(tabs)/index.tsx`:

* `getDistance`      — haversine great-circle distance (lines 26-35),
  modelled over the real numbers (JS `number` idealised as `ℝ`);
* `getCentroid`      — representative-coordinate extraction (lines 40-55),
  modelled over a JSON-style value type `JVal` with JavaScript truthiness
  and indexing semantics;
* the classification loop of `initializeApp` (lines 152-195), including
  `parseFloat`-based area parsing;
* `mergeAreas`       — the greedy per-category proximity merge
  (lines 200-294).  The turf.js operations `turf.buffer` and
  `turf.booleanIntersects` are third-party library calls; they are taken
  as oracle parameters of type `Geometry → Except Unit (Option Geometry)`
  resp. `Geometry → Geometry → Except Unit Bool`, where `.error` models a
  thrown exception and a `none` buffer models `undefined`
  (`turf.feature` is a plain wrapper and is modelled as the identity);
* the nearest-zone ranking effect (lines 330-345); the distance keys are
  produced by an abstract `dist : ProcessedZone → ℚ` standing for
  `getDistance(user, zone.centroid)` (whose numeric behaviour is treated
  separately over `ℝ`), and `Array.prototype.sort` with comparator
  `(a, b) => a.distance - b.distance` is modelled by the stable
  insertion sort `sortByDistance` (ECMAScript sort is stable);
* `processZones`     — the classification-plus-merge pipeline
  (lines 145-326).

Rational numbers stand in for JavaScript float values wherever the code
does exact-looking arithmetic (area sums, comparisons); the trigonometric
distance function is modelled over `ℝ`.
-/

namespace DogZones

/-! ## JavaScript-style values

`Geometry.coordinates` is typed `any` in `src/types.ts` and the code
probes it with truthiness checks and bracket indexing, so we model it as
a JSON-style value.  Arrays are encoded as cons chains (`anil`/`acons`)
so that `DecidableEq` can be derived. -/

inductive JVal where
  | undef : JVal
  | num : ℚ → JVal
  | anil : JVal
  | acons : JVal → JVal → JVal
deriving DecidableEq

/-- Build an array value from a Lean list. -/
def jarr : List JVal → JVal :=
  fun l => l.foldr JVal.acons JVal.anil

/-- JavaScript truthiness: `undefined` is falsy, a number is falsy iff it
is zero (NaN does not occur in the model), and every array (object) is
truthy, including `[]`. -/
def jsTruthy : JVal → Bool
  | JVal.undef => false
  | JVal.num q => q != 0
  | JVal.anil => true
  | JVal.acons _ _ => true

/-- JavaScript bracket indexing `v[i]` on the values of the model.  An
out-of-range index, or indexing a number, yields `undefined`.  (The code
only ever indexes values it has just checked to be truthy, so the
`TypeError` thrown by indexing `undefined` itself cannot occur; this
total function is therefore a faithful model of the guarded accesses.) -/
def jsIndex : JVal → Nat → JVal
  | JVal.acons h _, 0 => h
  | JVal.acons _ t, n + 1 => jsIndex t n
  | _, _ => JVal.undef

/-! ## Data model (`src/types.ts`) -/

/-- Structure `Geometry` from `src/types.ts`: `type : string`, `coordinates : any`. -/
structure Geometry where
  type : String
  coordinates : JVal
deriving DecidableEq

/-- The representative coordinate object `{lat, lng}` built by
`getCentroid`.  Its components are JS values: on well-formed input they
are numbers, but (as proved below) malformed coordinate arrays can leak
`undefined` components. -/
structure Centroid where
  lat : JVal
  lng : JVal
deriving DecidableEq

/-- Structure `FeatureProperties` from `src/types.ts`. -/
structure FeatureProperties where
  OPPERVLAKTE : Option String
  WIJKNAAM : Option String
  CODE : String
  GEBIEDSTEAM : Option String
  ID : Int
deriving DecidableEq

/-- Structure `GeoJsonFeature` from `src/types.ts` (the constant `type : 'Feature'`
tag carries no information and is omitted).  `geometry` is optional
because the code truthiness-tests `feature.geometry`. -/
structure RawFeature where
  id : String
  geometry : Option Geometry
  geometry_name : Option String
  properties : FeatureProperties
deriving DecidableEq

/-- The `zoneType : 'area' | 'point'` discriminator of `ProcessedZone`. -/
inductive ZoneType where
  | area : ZoneType
  | point : ZoneType
deriving DecidableEq

/-- Structure `ProcessedZone` from `src/types.ts`. -/
structure ProcessedZone where
  id : String
  properties : FeatureProperties
  geometry : Geometry
  geometry_name : Option String
  zoneType : ZoneType
  centroid : Centroid
  area : Option ℚ
  distance : Option ℚ
deriving DecidableEq

/-! ## `getCentroid` (index.tsx lines 40-55)

The source guards every bracket access with a truthiness check, so the
surrounding `try`/`catch` can never fire; the function is total. -/

/-- Function `getCentroid(geometry)`: first vertex of the outer ring (Polygon), or
of the first polygon's outer ring (MultiPolygon); `null` otherwise. -/
def getCentroid (geometry : Option Geometry) : Option Centroid :=
  match geometry with
  | none => none
  | some g =>
    if !(jsTruthy g.coordinates) then none
    else
      let coords := g.coordinates
      if g.type == "Polygon" && jsTruthy coords && jsTruthy (jsIndex coords 0)
          && jsTruthy (jsIndex (jsIndex coords 0) 0) then
        some { lat := jsIndex (jsIndex (jsIndex coords 0) 0) 1
             , lng := jsIndex (jsIndex (jsIndex coords 0) 0) 0 }
      else if g.type == "MultiPolygon" && jsTruthy coords && jsTruthy (jsIndex coords 0)
          && jsTruthy (jsIndex (jsIndex coords 0) 0)
          && jsTruthy (jsIndex (jsIndex (jsIndex coords 0) 0) 0) then
        some { lat := jsIndex (jsIndex (jsIndex (jsIndex coords 0) 0) 0) 1
             , lng := jsIndex (jsIndex (jsIndex (jsIndex coords 0) 0) 0) 0 }
      else none

/-! ## `parseFloat` model

`parseFloat` is an ECMAScript builtin: leading whitespace is skipped, an
optional sign is read, then the longest prefix that is a decimal literal
(digits, optional fraction, optional exponent) is converted; if no such
prefix exists the result is NaN (modelled as `none`).  The result is an
exact rational (JS rounds to the nearest double; the `"Infinity"` form
is not modelled). -/

def isDecDigit (c : Char) : Bool := '0' ≤ c && c ≤ '9'

/-- Split a character list into its longest digit prefix and the rest. -/
def takeDigits : List Char → List Char × List Char
  | [] => ([], [])
  | c :: cs =>
    if isDecDigit c then
      let r := takeDigits cs
      (c :: r.1, r.2)
    else ([], c :: cs)

/-- Value of a digit string read as an integer. -/
def natOfDigits (ds : List Char) : ℕ :=
  ds.foldl (fun acc c => 10 * acc + (c.toNat - '0'.toNat)) 0

/-- Value of a digit string read as a fractional part (`.ds`). -/
def fracOfDigits (ds : List Char) : ℚ :=
  ds.foldr (fun c acc => (((c.toNat - '0'.toNat : ℕ) : ℚ) + acc) / 10) 0

/-- Parse `digits [. digits]` (at least one digit overall); returns the
value and the unconsumed rest. -/
def parseSignificand (cs : List Char) : Option (ℚ × List Char) :=
  let ip := takeDigits cs
  match ip.2 with
  | '.' :: cs2 =>
    let fp := takeDigits cs2
    if ip.1.isEmpty && fp.1.isEmpty then none
    else some ((natOfDigits ip.1 : ℚ) + fracOfDigits fp.1, fp.2)
  | _ => if ip.1.isEmpty then none else some ((natOfDigits ip.1 : ℚ), ip.2)

/-- Parse an exponent part `e|E [+|-] digits` if present and well formed. -/
def parseExpPart : List Char → Option Int
  | [] => none
  | c :: cs =>
    if c == 'e' || c == 'E' then
      match cs with
      | '+' :: cs2 =>
        let r := takeDigits cs2
        if r.1.isEmpty then none else some ((natOfDigits r.1 : Int))
      | '-' :: cs2 =>
        let r := takeDigits cs2
        if r.1.isEmpty then none else some (-(natOfDigits r.1 : Int))
      | _ =>
        let r := takeDigits cs
        if r.1.isEmpty then none else some ((natOfDigits r.1 : Int))
    else none

/-- Model of `parseFloat`; `none` is NaN. -/
def jsParseFloat (s : String) : Option ℚ :=
  let cs := s.toList.dropWhile (fun c => c.isWhitespace)
  let sgn : ℚ × List Char :=
    match cs with
    | '-' :: r => (-1, r)
    | '+' :: r => (1, r)
    | _ => (1, cs)
  match parseSignificand sgn.2 with
  | none => none
  | some mr =>
    match parseExpPart mr.2 with
    | some e => some (sgn.1 * mr.1 * (10 : ℚ) ^ e)
    | none => some (sgn.1 * mr.1)

/-! ## Classification (index.tsx lines 152-195) -/

/-- The `OPPERVLAKTE` handling of lines 165-174: the field must be truthy
(non-`null`, non-empty), `parseFloat` must not return NaN, and the value
must be strictly positive; otherwise the zone has no area.  (`parseFloat`
never throws, so the `try`/`catch` there is dead.) -/
def parseAreaField (o : Option String) : Option ℚ :=
  match o with
  | none => none
  | some s =>
    if s == "" then none
    else
      match jsParseFloat s with
      | none => none
      | some v => if 0 < v then some v else none

/-- One iteration of the classification loop (lines 158-194) for the
feature at index `i`: `none` means the feature is skipped.  The produced
zone's id is `zone_<i>` (`DEFAULT_ZONE_ID_PREFIX`). -/
def classifyOne (i : Nat) (f : RawFeature) : Option ProcessedZone :=
  match f.geometry with
  | none => none
  | some geom =>
    if f.properties.CODE == "GROEN" || f.properties.CODE == "ORANJE" then
      let area := parseAreaField f.properties.OPPERVLAKTE
      match getCentroid (some geom) with
      | none => none
      | some c =>
        some { id := "zone_" ++ toString i
             , properties := f.properties
             , geometry := geom
             , geometry_name := f.geometry_name
             , zoneType := if area.isSome then ZoneType.area else ZoneType.point
             , centroid := c
             , area := area
             , distance := none }
    else none

/-- The classification loop: returns `(initialAreaZones, initialPointZones)`,
both in input order, counting feature indices from `i`. -/
def classifyAux : Nat → List RawFeature → List ProcessedZone × List ProcessedZone
  | _, [] => ([], [])
  | i, f :: fs =>
    let rest := classifyAux (i + 1) fs
    match classifyOne i f with
    | none => rest
    | some z =>
      if z.zoneType == ZoneType.area then (z :: rest.1, rest.2) else (rest.1, z :: rest.2)

/-- Classification of the whole feature list (indices start at 0). -/
def classifyFeatures (features : List RawFeature) : List ProcessedZone × List ProcessedZone :=
  classifyAux 0 features

/-! ## The proximity-merge engine (index.tsx lines 200-294)

The turf.js calls are oracle parameters:
`buffer g` models `turf.buffer(turf.feature(g), MERGE_DISTANCE_METERS/2000)`
(so each geometry is buffered by half the 100 m merge threshold), with
`.error ()` for a thrown exception and `.ok none` for an `undefined`
result; `bIntersects` models `turf.booleanIntersects`. -/

/-- Lines 229-237: the geometry objects rebuilt before the turf calls;
any non-`'Polygon'` type is coerced to `'MultiPolygon'`. -/
def normalizeGeom (g : Geometry) : Geometry :=
  { type := if g.type == "Polygon" then "Polygon" else "MultiPolygon"
  , coordinates := g.coordinates }

/-- The body of the `try` block (lines 229-248): rebuild the two
geometries, buffer both, and test `buffer1 && buffer2 &&
booleanIntersects(buffer1, buffer2)` (an `undefined` buffer
short-circuits to `false`).  Any `.error` models a throw inside the
block. -/
def proximityCheck (buffer : Geometry → Except Unit (Option Geometry))
    (bIntersects : Geometry → Geometry → Except Unit Bool)
    (g1 g2 : Geometry) : Except Unit Bool := do
  let f1 := normalizeGeom g1
  let f2 := normalizeGeom g2
  let b1 ← buffer f1
  let b2 ← buffer f2
  match b1, b2 with
  | some v1, some v2 => bIntersects v1 v2
  | _, _ => pure false

/-- How the loop consumes a `try`-block result: a throw is caught and the
comparison counts as "no intersection". -/
def pairNoThrow (r : Except Unit Bool) : Bool :=
  match r with
  | Except.ok b => b
  | Except.error _ => false

/-- The `MERGED_ZONE_ID_PREFIX` based id of a merged zone: the marker carries
the category and the anchor index (line 276). -/
def mergedZoneId (code : String) (i : Nat) : String :=
  "merged_" ++ code ++ "_" ++ toString i

/-- Index-tagging of the filtered zone list, mirroring the `for (let i …)`
loops (`enumAreas 0 l` pairs each zone with its index in `l`). -/
def enumAreas : Nat → List ProcessedZone → List (Nat × ProcessedZone)
  | _, [] => []
  | n, z :: zs => (n, z) :: enumAreas (n + 1) zs

/-- The inner scan (lines 224-263): starting from the anchor geometry and
the running area value `acc`, walk the later zones; a zone `j` not yet in
`processedIndices` whose proximity check succeeds is claimed and its area
(`|| 0`) is accumulated.  Returns the claimed pairs (the tail of the
source's `currentAreaIndices`), the final area value, and the final
`processedIndices`.  A caught throw (or `ok false`) just skips the
comparison. -/
def scanFollowers (check : Geometry → Geometry → Except Unit Bool) (anchorGeom : Geometry) :
    List (Nat × ProcessedZone) → List Nat → ℚ →
      List (Nat × ProcessedZone) × ℚ × List Nat
  | [], processed, acc => ([], acc, processed)
  | (j, zj) :: rest, processed, acc =>
    if j ∈ processed then scanFollowers check anchorGeom rest processed acc
    else
      match check anchorGeom zj.geometry with
      | Except.ok true =>
        let r := scanFollowers check anchorGeom rest (j :: processed) (acc + zj.area.getD 0)
        ((j, zj) :: r.1, r.2)
      | Except.ok false => scanFollowers check anchorGeom rest processed acc
      | Except.error _ => scanFollowers check anchorGeom rest processed acc

/-- The outer loop (lines 212-291).  Each emitted element carries the
group (the source's `currentAreaIndices`, as index-zone pairs) together
with the zone pushed onto `mergedResult`: the unchanged zone for a
singleton group, otherwise the anchor's record with the merged id, the
summed area, and (when `getCentroid` succeeds on the anchor geometry,
which stays the representative geometry — no union is computed) the
recomputed centroid. -/
def mergeLoop (check : Geometry → Geometry → Except Unit Bool) (code : String) :
    List (Nat × ProcessedZone) → List Nat →
      List (List (Nat × ProcessedZone) × ProcessedZone)
  | [], _ => []
  | (i, z) :: rest, processed =>
    if i ∈ processed then mergeLoop check code rest processed
    else
      let r := scanFollowers check z.geometry rest (i :: processed) (z.area.getD 0)
      if r.1.isEmpty then
        ((i, z) :: r.1, z) :: mergeLoop check code rest r.2.2
      else
        let zm : ProcessedZone :=
          match getCentroid (some z.geometry) with
          | some c => { z with id := mergedZoneId code i, centroid := c, area := some r.2.1 }
          | none => { z with id := mergedZoneId code i, area := some r.2.1 }
        ((i, z) :: r.1, zm) :: mergeLoop check code rest r.2.2

/-- Function `mergeAreas(areas, codeToMerge)` (lines 200-294): filter to the given
category, return as-is when fewer than two zones remain, otherwise run
the greedy merge. -/
def mergeAreas (buffer : Geometry → Except Unit (Option Geometry))
    (bIntersects : Geometry → Geometry → Except Unit Bool)
    (areas : List ProcessedZone) (code : String) : List ProcessedZone :=
  let areasToMerge := areas.filter (fun z => z.properties.CODE == code)
  if areasToMerge.length < 2 then areasToMerge
  else
    (mergeLoop (proximityCheck buffer bIntersects) code (enumAreas 0 areasToMerge) []).map
      (fun g => g.2)

/-- The groups built by the same run of `mergeAreas` (for the
fewer-than-two early return every zone is its own group). -/
def mergeGroups (buffer : Geometry → Except Unit (Option Geometry))
    (bIntersects : Geometry → Geometry → Except Unit Bool)
    (areas : List ProcessedZone) (code : String) : List (List (Nat × ProcessedZone)) :=
  let areasToMerge := areas.filter (fun z => z.properties.CODE == code)
  if areasToMerge.length < 2 then (enumAreas 0 areasToMerge).map (fun p => [p])
  else
    (mergeLoop (proximityCheck buffer bIntersects) code (enumAreas 0 areasToMerge) []).map
      (fun g => g.1)

/-! ### Throw-free reference version of the merge (for the
error-handling claim): identical control flow, but the pairwise test is
a total boolean. -/

/-- Variant of `scanFollowers` with a total pairwise test. -/
def scanFollowersT (test : Geometry → Geometry → Bool) (anchorGeom : Geometry) :
    List (Nat × ProcessedZone) → List Nat → ℚ →
      List (Nat × ProcessedZone) × ℚ × List Nat
  | [], processed, acc => ([], acc, processed)
  | (j, zj) :: rest, processed, acc =>
    if j ∈ processed then scanFollowersT test anchorGeom rest processed acc
    else if test anchorGeom zj.geometry then
      let r := scanFollowersT test anchorGeom rest (j :: processed) (acc + zj.area.getD 0)
      ((j, zj) :: r.1, r.2)
    else scanFollowersT test anchorGeom rest processed acc

/-- Variant of `mergeLoop` with a total pairwise test. -/
def mergeLoopT (test : Geometry → Geometry → Bool) (code : String) :
    List (Nat × ProcessedZone) → List Nat →
      List (List (Nat × ProcessedZone) × ProcessedZone)
  | [], _ => []
  | (i, z) :: rest, processed =>
    if i ∈ processed then mergeLoopT test code rest processed
    else
      let r := scanFollowersT test z.geometry rest (i :: processed) (z.area.getD 0)
      if r.1.isEmpty then
        ((i, z) :: r.1, z) :: mergeLoopT test code rest r.2.2
      else
        let zm : ProcessedZone :=
          match getCentroid (some z.geometry) with
          | some c => { z with id := mergedZoneId code i, centroid := c, area := some r.2.1 }
          | none => { z with id := mergedZoneId code i, area := some r.2.1 }
        ((i, z) :: r.1, zm) :: mergeLoopT test code rest r.2.2

/-- Variant of `mergeAreas` with a total pairwise test (no exceptions anywhere). -/
def mergeAreasTotal (test : Geometry → Geometry → Bool)
    (areas : List ProcessedZone) (code : String) : List ProcessedZone :=
  let areasToMerge := areas.filter (fun z => z.properties.CODE == code)
  if areasToMerge.length < 2 then areasToMerge
  else (mergeLoopT test code (enumAreas 0 areasToMerge) []).map (fun g => g.2)

/-! ## The classification-plus-merge pipeline (lines 145-326) -/

/-- Lines 296-305: merge the area zones per category and append the
point zones. -/
def processZones (buffer : Geometry → Except Unit (Option Geometry))
    (bIntersects : Geometry → Geometry → Except Unit Bool)
    (features : List RawFeature) : List ProcessedZone :=
  let zs := classifyFeatures features
  let mergedGreenAreas := mergeAreas buffer bIntersects zs.1 "GROEN"
  let mergedOrangeAreas := mergeAreas buffer bIntersects zs.1 "ORANJE"
  mergedGreenAreas ++ mergedOrangeAreas ++ zs.2

/-! ## Nearest-zone ranking (index.tsx lines 330-345)

`dist z` stands for `getDistance(user.lat, user.lng, z.centroid.lat,
z.centroid.lng)`; the numeric behaviour of `getDistance` itself is
treated separately over `ℝ`.  `Array.prototype.sort` with the comparator
`(a, b) => a.distance - b.distance` is a stable ascending sort
(ECMAScript 2019), modelled by a stable insertion sort. -/

/-- The sort key: the `distance` field (always set by the ranking map). -/
def distVal (z : ProcessedZone) : ℚ := z.distance.getD 0

/-- Stable insertion: the new element goes before the first existing
element that is not strictly smaller, so earlier input elements stay
first among equal keys. -/
def insertByDist (z : ProcessedZone) : List ProcessedZone → List ProcessedZone
  | [] => [z]
  | w :: ws => if distVal w < distVal z then w :: insertByDist z ws else z :: w :: ws

/-- Stable ascending sort by `distVal`. -/
def sortByDistance : List ProcessedZone → List ProcessedZone
  | [] => []
  | z :: zs => insertByDist z (sortByDistance zs)

/-- Constant `MAX_NEAREST` (line 15). -/
def MAX_NEAREST : Nat := 5

/-- The nearest-zones effect (lines 330-345): annotate every zone with
its distance, sort ascending, keep the first `k` (`k = MAX_NEAREST` in
the source). -/
def computeNearest (dist : ProcessedZone → ℚ) (zones : List ProcessedZone) (k : Nat) :
    List ProcessedZone :=
  let zonesWithDistance := zones.map (fun z => { z with distance := some (dist z) })
  (sortByDistance zonesWithDistance).take k

/-! ## `getDistance` (index.tsx lines 26-35), over `ℝ` -/

/-- Function `getDistance(lat1, lon1, lat2, lon2)`: the source's haversine
formula, verbatim, with JS numbers idealised as reals
(`R = 6371`, `dLat = (lat2-lat1)·π/180`, `dLon = (lon2-lon1)·π/180`,
`a = 0.5 - cos(dLat)/2 + cos(lat1·π/180)·cos(lat2·π/180)·(1-cos(dLon))/2`,
result `R · 2 · asin(√a)`). -/
noncomputable def getDistance (lat1 lon1 lat2 lon2 : ℝ) : ℝ :=
  6371 * 2 * Real.arcsin (Real.sqrt
    (0.5 - Real.cos ((lat2 - lat1) * Real.pi / 180) / 2 +
      Real.cos (lat1 * Real.pi / 180) * Real.cos (lat2 * Real.pi / 180) *
        (1 - Real.cos ((lon2 - lon1) * Real.pi / 180)) / 2))

/-- Modelled from the spec: the reference haversine formula with Earth
radius 6371 km — `2R·asin(√(sin²(Δφ/2) + cosφ₁·cosφ₂·sin²(Δλ/2)))` —
against which `getDistance` is compared. -/
noncomputable def haversineRefKm (lat1 lon1 lat2 lon2 : ℝ) : ℝ :=
  2 * 6371 * Real.arcsin (Real.sqrt
    (Real.sin ((lat2 - lat1) * Real.pi / 180 / 2) ^ 2 +
      Real.cos (lat1 * Real.pi / 180) * Real.cos (lat2 * Real.pi / 180) *
        Real.sin ((lon2 - lon1) * Real.pi / 180 / 2) ^ 2))

/-! ## Concrete fixtures (used by witnesses and counterexamples) -/

/-- A one-vertex polygon geometry whose outer ring starts at
`[lng, lat]`. -/
def polyGeomAt (lng lat : ℚ) : Geometry :=
  { type := "Polygon", coordinates := jarr [jarr [jarr [JVal.num lng, JVal.num lat]]] }

/-- An AREA zone fixture positioned at `[lng, lat]`. -/
def mkAreaZone (idz : String) (code : String) (lng lat : ℚ) (a : Option ℚ) : ProcessedZone :=
  { id := idz
  , properties :=
      { OPPERVLAKTE := some "1", WIJKNAAM := none, CODE := code, GEBIEDSTEAM := none, ID := 0 }
  , geometry := polyGeomAt lng lat
  , geometry_name := none
  , zoneType := ZoneType.area
  , centroid := { lat := JVal.num lat, lng := JVal.num lng }
  , area := a
  , distance := none }

/-- Buffer oracle that succeeds and returns the geometry itself. -/
def okBuffer : Geometry → Except Unit (Option Geometry) :=
  fun g => Except.ok (some g)

/-- Intersection oracle that always succeeds with `true`. -/
def alwaysIntersects : Geometry → Geometry → Except Unit Bool :=
  fun _ _ => Except.ok true

/-- Intersection oracle that always succeeds with `false`. -/
def neverIntersects : Geometry → Geometry → Except Unit Bool :=
  fun _ _ => Except.ok false

/-- Length of an array value (0 for non-arrays). -/
def jlen : JVal → Nat
  | JVal.acons _ t => jlen t + 1
  | _ => 0

/-- Position tag of a chain-fixture geometry: the length of the second
entry of its `coordinates` array. -/
def geoTag (g : Geometry) : Nat := jlen (jsIndex g.coordinates 1)

/-- Intersection oracle for the merge counterexample: two buffered zones
intersect iff their position tags are at most 1 apart (a stand-in for
"within the 100 m merge threshold"). -/
def chainIntersects : Geometry → Geometry → Except Unit Bool :=
  fun g1 g2 =>
    Except.ok (decide (geoTag g1 - geoTag g2 ≤ 1 ∧ geoTag g2 - geoTag g1 ≤ 1))

/-- A chain-fixture AREA zone at position `k` (the first vertex of the
outer ring is `[5, 52]`; an extra ring of length `k` encodes the
position read by `chainIntersects`). -/
def chainZone (k : Nat) (idz : String) (a : ℚ) : ProcessedZone :=
  { id := idz
  , properties :=
      { OPPERVLAKTE := some "1", WIJKNAAM := none, CODE := "GROEN", GEBIEDSTEAM := none, ID := 0 }
  , geometry :=
      { type := "Polygon"
      , coordinates := jarr [jarr [jarr [JVal.num 5, JVal.num 52]]
                            , jarr (List.replicate k JVal.anil)] }
  , geometry_name := none
  , zoneType := ZoneType.area
  , centroid := { lat := JVal.num 52, lng := JVal.num 5 }
  , area := some a
  , distance := none }

/-- Three same-category zones in a row: A–B and B–C are within the
threshold, A–C is not. -/
def zChainA : ProcessedZone := chainZone 0 "zone_0" 10

/-- Middle zone of the chain. -/
def zChainB : ProcessedZone := chainZone 1 "zone_1" 20

/-- Far end of the chain: within threshold of B but not of A. -/
def zChainC : ProcessedZone := chainZone 2 "zone_2" 40

/-- Two far-apart zones for the isolated-zone witness. -/
def zIso0 : ProcessedZone := mkAreaZone "zone_0" "GROEN" 0 52 (some 10)

/-- Second far-apart zone. -/
def zIso1 : ProcessedZone := mkAreaZone "zone_1" "GROEN" 100 52 (some 20)

/-- Two nearby same-category zones for the pair-merge witness. -/
def zPair0 : ProcessedZone := mkAreaZone "zone_0" "GROEN" 0 52 (some 100)

/-- Second member of the pair. -/
def zPair1 : ProcessedZone := mkAreaZone "zone_1" "GROEN" 1 52 (some 200)

/-- A well-formed GROEN feature for the classification witness. -/
def featGroen : RawFeature :=
  { id := "f0"
  , geometry := some (polyGeomAt 5 52)
  , geometry_name := none
  , properties :=
      { OPPERVLAKTE := some "250", WIJKNAAM := none, CODE := "GROEN", GEBIEDSTEAM := none
      , ID := 7 } }

/-! # Theorems -/

/-! ## Claim C7: `getDistance` vanishes on the diagonal and is symmetric -/

/-- C7: for every point, the haversine distance from the point to itself
is `0`; for every pair of points the distance is symmetric in its two
arguments; in particular the spec's test vector
`distanceKm(52.1561, 5.3878, 52.1561, 5.3878) = 0` holds.  (JS doubles
are idealised as reals.) -/
theorem getDistance_zero_and_symm :
    (∀ lat lon : ℝ, getDistance lat lon lat lon = 0) ∧
    (∀ lat1 lon1 lat2 lon2 : ℝ,
      getDistance lat1 lon1 lat2 lon2 = getDistance lat2 lon2 lat1 lon1) ∧
    getDistance 52.1561 5.3878 52.1561 5.3878 = 0 := by
  have hzero : ∀ lat lon : ℝ, getDistance lat lon lat lon = 0 := by
    intro lat lon
    unfold getDistance
    have h1 : ((lat - lat) * Real.pi / 180 : ℝ) = 0 := by ring
    have h2 : ((lon - lon) * Real.pi / 180 : ℝ) = 0 := by ring
    rw [h1, h2, Real.cos_zero]
    have h3 : (0.5 : ℝ) - 1 / 2 +
        Real.cos (lat * Real.pi / 180) * Real.cos (lat * Real.pi / 180) * (1 - 1) / 2 = 0 := by
      norm_num
    rw [h3, Real.sqrt_zero, Real.arcsin_zero, mul_zero]
  have hsymm : ∀ lat1 lon1 lat2 lon2 : ℝ,
      getDistance lat1 lon1 lat2 lon2 = getDistance lat2 lon2 lat1 lon1 := by
    intro lat1 lon1 lat2 lon2
    unfold getDistance
    have c1 : Real.cos ((lat2 - lat1) * Real.pi / 180)
        = Real.cos ((lat1 - lat2) * Real.pi / 180) := by
      rw [show (lat2 - lat1) * Real.pi / 180 = -((lat1 - lat2) * Real.pi / 180) by ring,
        Real.cos_neg]
    have c2 : Real.cos ((lon2 - lon1) * Real.pi / 180)
        = Real.cos ((lon1 - lon2) * Real.pi / 180) := by
      rw [show (lon2 - lon1) * Real.pi / 180 = -((lon1 - lon2) * Real.pi / 180) by ring,
        Real.cos_neg]
    rw [c1, c2,
      mul_comm (Real.cos (lat1 * Real.pi / 180)) (Real.cos (lat2 * Real.pi / 180))]
  exact ⟨hzero, hsymm, hzero 52.1561 5.3878⟩

/-! ## Claim C8: `getDistance` is the reference haversine formula -/

/-- C8: `getDistance` coincides with the reference haversine formula
(`2R·asin(√(sin²(Δφ/2) + cosφ₁cosφ₂·sin²(Δλ/2)))`, `R = 6371` km) at
every input, and on the spec's test vector — two points `0.01°` of
latitude apart at the same longitude near latitude 52 — it returns a
value within ±1% of 1.11 km. -/
theorem getDistance_matches_haversine :
    (∀ lat1 lon1 lat2 lon2 : ℝ,
      getDistance lat1 lon1 lat2 lon2 = haversineRefKm lat1 lon1 lat2 lon2) ∧
    (1.0989 ≤ getDistance 52 5 52.01 5 ∧ getDistance 52 5 52.01 5 ≤ 1.1211) := by
  have hs : ∀ x : ℝ, Real.sin (x / 2) ^ 2 = 1 / 2 - Real.cos x / 2 := by
    intro x
    rw [Real.sin_sq_eq_half_sub, show (2 : ℝ) * (x / 2) = x by ring]
  have href : ∀ lat1 lon1 lat2 lon2 : ℝ,
      getDistance lat1 lon1 lat2 lon2 = haversineRefKm lat1 lon1 lat2 lon2 := by
    intro lat1 lon1 lat2 lon2
    unfold getDistance haversineRefKm
    have harg : (0.5 : ℝ) - Real.cos ((lat2 - lat1) * Real.pi / 180) / 2 +
        Real.cos (lat1 * Real.pi / 180) * Real.cos (lat2 * Real.pi / 180) *
          (1 - Real.cos ((lon2 - lon1) * Real.pi / 180)) / 2
        = Real.sin ((lat2 - lat1) * Real.pi / 180 / 2) ^ 2 +
          Real.cos (lat1 * Real.pi / 180) * Real.cos (lat2 * Real.pi / 180) *
            Real.sin ((lon2 - lon1) * Real.pi / 180 / 2) ^ 2 := by
      rw [hs ((lat2 - lat1) * Real.pi / 180), hs ((lon2 - lon1) * Real.pi / 180)]
      ring
    rw [harg]
    ring
  have key : getDistance 52 5 52.01 5 = 6371 * Real.pi / 18000 := by
    unfold getDistance
    have e1 : ((52.01 : ℝ) - 52) * Real.pi / 180 = Real.pi / 18000 := by
      rw [show ((52.01 : ℝ) - 52) = 1 / 100 by norm_num]
      ring
    have e2 : ((5 : ℝ) - 5) * Real.pi / 180 = 0 := by ring
    rw [e1, e2, Real.cos_zero]
    have e3 : (0.5 : ℝ) - Real.cos (Real.pi / 18000) / 2 +
        Real.cos (52 * Real.pi / 180) * Real.cos (52.01 * Real.pi / 180) * (1 - 1) / 2
        = Real.sin (Real.pi / 36000) ^ 2 := by
      rw [show (Real.pi / 36000 : ℝ) = Real.pi / 18000 / 2 by ring, hs (Real.pi / 18000)]
      ring
    have hsin : (0 : ℝ) ≤ Real.sin (Real.pi / 36000) :=
      Real.sin_nonneg_of_nonneg_of_le_pi (by positivity)
        (div_le_self Real.pi_pos.le (by norm_num))
    have hlo : -(Real.pi / 2) ≤ Real.pi / 36000 := by nlinarith [Real.pi_pos]
    have hhi : Real.pi / 36000 ≤ Real.pi / 2 := by nlinarith [Real.pi_pos]
    rw [e3, Real.sqrt_sq hsin, Real.arcsin_sin hlo hhi]
    ring
  refine ⟨href, ?_, ?_⟩
  · rw [key]
    have h := Real.pi_gt_d6
    nlinarith
  · rw [key]
    have h := Real.pi_lt_d2
    nlinarith

/-! ## Claim C9: `getCentroid` case analysis -/

/-- C9 counterexample: the claim says `getCentroid` returns `none` on
malformed coordinate arrays, but for a Polygon whose outer ring's first
entry is the (truthy) empty array `[]` — coordinates `[[[]]]` — the code
returns `{lat: undefined, lng: undefined}`, not `null`. -/
theorem getCentroid_malformed_counterexample :
    getCentroid (some { type := "Polygon", coordinates := jarr [jarr [jarr []]] })
      = some { lat := JVal.undef, lng := JVal.undef } ∧
    (some { lat := JVal.undef, lng := JVal.undef } : Option Centroid) ≠ none := by
  exact ⟨rfl, by simp⟩

/-- C9 (amended): `getCentroid` never throws (it is total: every bracket
access is guarded by a truthiness check, so the source's `catch` is
unreachable) and behaves as follows: `none` for a missing geometry, for
falsy `coordinates`, for a type other than Polygon/MultiPolygon, and for
a Polygon (resp. MultiPolygon) whose checked coordinate prefix is falsy;
for a Polygon whose guarded prefix is truthy it returns the object built
from the outer ring's first entry — the first vertex when well formed,
but possibly with `undefined` components when that entry is a truthy
non-pair (and analogously, one level deeper, for MultiPolygon). -/
theorem getCentroid_cases :
    (getCentroid none = none) ∧
    (∀ g : Geometry, jsTruthy g.coordinates = false → getCentroid (some g) = none) ∧
    (∀ g : Geometry, g.type ≠ "Polygon" → g.type ≠ "MultiPolygon" →
      getCentroid (some g) = none) ∧
    (∀ g : Geometry, g.type = "Polygon" → jsTruthy g.coordinates = true →
      jsTruthy (jsIndex g.coordinates 0) = true →
      jsTruthy (jsIndex (jsIndex g.coordinates 0) 0) = true →
      getCentroid (some g)
        = some { lat := jsIndex (jsIndex (jsIndex g.coordinates 0) 0) 1
               , lng := jsIndex (jsIndex (jsIndex g.coordinates 0) 0) 0 }) ∧
    (∀ g : Geometry, g.type = "Polygon" →
      (jsTruthy (jsIndex g.coordinates 0) = false ∨
        jsTruthy (jsIndex (jsIndex g.coordinates 0) 0) = false) →
      getCentroid (some g) = none) ∧
    (∀ g : Geometry, g.type = "MultiPolygon" → jsTruthy g.coordinates = true →
      jsTruthy (jsIndex g.coordinates 0) = true →
      jsTruthy (jsIndex (jsIndex g.coordinates 0) 0) = true →
      jsTruthy (jsIndex (jsIndex (jsIndex g.coordinates 0) 0) 0) = true →
      getCentroid (some g)
        = some { lat := jsIndex (jsIndex (jsIndex (jsIndex g.coordinates 0) 0) 0) 1
               , lng := jsIndex (jsIndex (jsIndex (jsIndex g.coordinates 0) 0) 0) 0 }) ∧
    (∀ g : Geometry, g.type = "MultiPolygon" →
      (jsTruthy (jsIndex g.coordinates 0) = false ∨
        jsTruthy (jsIndex (jsIndex g.coordinates 0) 0) = false ∨
        jsTruthy (jsIndex (jsIndex (jsIndex g.coordinates 0) 0) 0) = false) →
      getCentroid (some g) = none) := by
  refine ⟨rfl, ?_, ?_, ?_, ?_, ?_, ?_⟩
  · intro g h
    simp [getCentroid, h]
  · intro g h1 h2
    have e1 : (g.type == "Polygon") = false := by
      simpa using h1
    have e2 : (g.type == "MultiPolygon") = false := by
      simpa using h2
    cases h : jsTruthy g.coordinates <;> simp [getCentroid, h, e1, e2]
  · intro g hp ht h0 h00
    simp [getCentroid, hp, ht, h0, h00]
  · intro g hp hbad
    have e2 : (g.type == "MultiPolygon") = false := by
      simp [hp]
    cases ht : jsTruthy g.coordinates
    · simp [getCentroid, ht]
    · rcases hbad with h | h <;> simp [getCentroid, hp, ht, h, e2]
  · intro g hm ht h0 h00 h000
    have e1 : (g.type == "Polygon") = false := by
      simp [hm]
    simp [getCentroid, hm, ht, h0, h00, h000, e1]
  · intro g hm hbad
    have e1 : (g.type == "Polygon") = false := by
      simp [hm]
    cases ht : jsTruthy g.coordinates
    · simp [getCentroid, ht]
    · rcases hbad with h | h | h <;>
        simp [getCentroid, hm, ht, h, e1]

/-- Witness for `getCentroid_cases`: the Polygon branch applied to the
concrete geometry `polyGeomAt 5 52` extracts its first vertex. -/
theorem getCentroid_cases_witness :
    getCentroid (some (polyGeomAt 5 52))
      = some { lat := jsIndex (jsIndex (jsIndex (polyGeomAt 5 52).coordinates 0) 0) 1
             , lng := jsIndex (jsIndex (jsIndex (polyGeomAt 5 52).coordinates 0) 0) 0 } :=
  getCentroid_cases.2.2.2.1 (polyGeomAt 5 52) rfl rfl rfl rfl

/-! ## Claim C2: classification case analysis -/

theorem jsParseFloat_empty : jsParseFloat "" = none := rfl

/-- The area field yields a value exactly when `OPPERVLAKTE` is present
and `parseFloat` returns a strictly positive number (the truthiness
pre-check only rejects `""`, which does not parse anyway). -/
theorem parseAreaField_isSome_iff (o : Option String) :
    (parseAreaField o).isSome = true ↔
      ∃ s v, o = some s ∧ jsParseFloat s = some v ∧ 0 < v := by
  rcases o with _ | s
  · simp [parseAreaField]
  · by_cases hse : s = ""
    · subst hse
      simp [parseAreaField, jsParseFloat_empty]
    · rcases hpf : jsParseFloat s with _ | v
      · simp [parseAreaField, hse, hpf]
      · by_cases hv : 0 < v
        · simp [parseAreaField, hse, hpf, hv]
        · simp [parseAreaField, hse, hpf, hv]

/-- C2: a feature with category GROEN/ORANJE, geometry present, and an
extractable centroid is classified into exactly one zone, which is an
AREA zone carrying the parsed area exactly when `OPPERVLAKTE` parses to
a strictly positive number (otherwise a POINT zone with no area); a
feature with any other category, or with no extractable centroid, or
with no geometry, produces no zone; and each loop iteration adds exactly
one zone (to one of the two lists) or none. -/
theorem classifyOne_spec (i : Nat) (f : RawFeature) :
    (∀ g, f.geometry = some g → ∀ c, getCentroid (some g) = some c →
      (f.properties.CODE = "GROEN" ∨ f.properties.CODE = "ORANJE") →
      classifyOne i f = some
        { id := "zone_" ++ toString i
        , properties := f.properties
        , geometry := g
        , geometry_name := f.geometry_name
        , zoneType := if (parseAreaField f.properties.OPPERVLAKTE).isSome then ZoneType.area
                      else ZoneType.point
        , centroid := c
        , area := parseAreaField f.properties.OPPERVLAKTE
        , distance := none } ∧
      ((parseAreaField f.properties.OPPERVLAKTE).isSome = true ↔
        ∃ s v, f.properties.OPPERVLAKTE = some s ∧ jsParseFloat s = some v ∧ 0 < v)) ∧
    (f.properties.CODE ≠ "GROEN" → f.properties.CODE ≠ "ORANJE" →
      classifyOne i f = none) ∧
    (∀ g, f.geometry = some g → getCentroid (some g) = none → classifyOne i f = none) ∧
    (f.geometry = none → classifyOne i f = none) ∧
    (∀ fs, ((classifyAux i (f :: fs)).1.length + (classifyAux i (f :: fs)).2.length)
      = (if (classifyOne i f).isSome then 1 else 0)
        + ((classifyAux (i + 1) fs).1.length + (classifyAux (i + 1) fs).2.length)) := by
  refine ⟨?_, ?_, ?_, ?_, ?_⟩
  · intro g hg c hc hcode
    have hcond : (f.properties.CODE == "GROEN" || f.properties.CODE == "ORANJE") = true := by
      rcases hcode with h | h <;> simp [h]
    refine ⟨?_, parseAreaField_isSome_iff _⟩
    simp [classifyOne, hg, hcond, hc]
  · intro h1 h2
    cases hg : f.geometry with
    | none => simp [classifyOne, hg]
    | some g => simp [classifyOne, hg, h1, h2]
  · intro g hg hc
    simp only [classifyOne, hg]
    split
    · simp [hc]
    · rfl
  · intro h
    simp [classifyOne, h]
  · intro fs
    cases hone : classifyOne i f with
    | none => simp [classifyAux, hone]
    | some z =>
      simp only [classifyAux, hone, Option.isSome_some, if_true]
      split <;> simp <;> omega

/-- Witness for `classifyOne_spec`: the concrete GROEN feature
`featGroen` (area string `"250"`, polygon at `[5, 52]`) classifies into
exactly one AREA zone with area 250. -/
theorem classifyOne_spec_witness :
    classifyOne 0 featGroen = some
      { id := "zone_0"
      , properties := featGroen.properties
      , geometry := polyGeomAt 5 52
      , geometry_name := none
      , zoneType := ZoneType.area
      , centroid := { lat := JVal.num 52, lng := JVal.num 5 }
      , area := some 250
      , distance := none } := by
  have h := ((classifyOne_spec 0 featGroen).1 (polyGeomAt 5 52) rfl
    { lat := JVal.num 52, lng := JVal.num 5 } rfl (Or.inl rfl)).1
  have hpf : jsParseFloat "250" = some (1 * ((natOfDigits ['2', '5', '0'] : ℕ) : ℚ)) := rfl
  have hn : natOfDigits ['2', '5', '0'] = 250 := by decide
  have hpf' : jsParseFloat "250" = some 250 := by
    rw [hpf, hn]
    norm_num
  have harea : parseAreaField featGroen.properties.OPPERVLAKTE = some 250 := by
    have hne : (("250" : String) == "") = false := by decide
    show parseAreaField (some "250") = some 250
    rw [parseAreaField]
    simp only [hne, Bool.false_eq_true, if_false, hpf']
    norm_num
  rw [h, harea]
  rfl

/-! ## Claim C3: the nearest-zone ranking -/

/-- Inserting permutes. -/
theorem insertByDist_perm (z : ProcessedZone) (l : List ProcessedZone) :
    List.Perm (insertByDist z l) (z :: l) := by
  induction l with
  | nil => simp [insertByDist]
  | cons w ws ih =>
    simp only [insertByDist]
    split
    · exact (ih.cons w).trans (List.Perm.swap z w ws)
    · exact List.Perm.refl _

/-- Sorting permutes. -/
theorem sortByDistance_perm (l : List ProcessedZone) :
    List.Perm (sortByDistance l) l := by
  induction l with
  | nil => exact List.Perm.refl _
  | cons z zs ih =>
    exact (insertByDist_perm z (sortByDistance zs)).trans (ih.cons z)

/-- Inserting into a sorted list keeps it sorted. -/
theorem insertByDist_pairwise (z : ProcessedZone) (l : List ProcessedZone)
    (h : List.Pairwise (fun a b => distVal a ≤ distVal b) l) :
    List.Pairwise (fun a b => distVal a ≤ distVal b) (insertByDist z l) := by
  induction l with
  | nil => simp [insertByDist]
  | cons w ws ih =>
    rcases List.pairwise_cons.mp h with ⟨hw, hws⟩
    by_cases hlt : distVal w < distVal z
    · rw [insertByDist, if_pos hlt]
      refine List.pairwise_cons.mpr ⟨?_, ih hws⟩
      intro b hb
      have hb' := (insertByDist_perm z ws).mem_iff.mp hb
      rcases List.mem_cons.mp hb' with rfl | hbws
      · exact le_of_lt hlt
      · exact hw b hbws
    · rw [insertByDist, if_neg hlt]
      refine List.pairwise_cons.mpr ⟨?_, h⟩
      intro b hb
      rcases List.mem_cons.mp hb with rfl | hbws
      · exact le_of_not_lt hlt
      · exact le_trans (le_of_not_lt hlt) (hw b hbws)

/-- The sort output is sorted ascending by distance. -/
theorem sortByDistance_pairwise (l : List ProcessedZone) :
    List.Pairwise (fun a b => distVal a ≤ distVal b) (sortByDistance l) := by
  induction l with
  | nil => simp [sortByDistance]
  | cons z zs ih => exact insertByDist_pairwise z (sortByDistance zs) ih

/-- Stability at the level of `insertByDist`: filtering at any key
commutes with insertion. -/
theorem insertByDist_filter (z : ProcessedZone) (l : List ProcessedZone) (q : ℚ) :
    (insertByDist z l).filter (fun x => distVal x == q)
      = if distVal z == q then z :: l.filter (fun x => distVal x == q)
        else l.filter (fun x => distVal x == q) := by
  induction l with
  | nil =>
    by_cases hzq : (distVal z == q) = true
    · simp [insertByDist, List.filter_cons, hzq]
    · simp [insertByDist, List.filter_cons, hzq]
  | cons w ws ih =>
    by_cases hlt : distVal w < distVal z
    · rw [insertByDist, if_pos hlt]
      by_cases hzq : (distVal z == q) = true
      · have hq : distVal z = q := by simpa using hzq
        have hwq : (distVal w == q) = false := by
          have : distVal w ≠ q := by
            intro hw
            rw [hw, ← hq] at hlt
            exact lt_irrefl _ hlt
          simpa using this
        simp [List.filter_cons, hwq, ih, hzq]
      · simp only [List.filter_cons, ih, hzq, if_false]
        simp
    · rw [insertByDist, if_neg hlt]
      by_cases hzq : (distVal z == q) = true
      · simp [List.filter_cons, hzq]
      · simp [List.filter_cons, hzq]

/-- Stability: sorting preserves, for every key, the subsequence of
elements having that key (ties keep their original relative order). -/
theorem sortByDistance_filter (q : ℚ) (l : List ProcessedZone) :
    (sortByDistance l).filter (fun x => distVal x == q)
      = l.filter (fun x => distVal x == q) := by
  induction l with
  | nil => rfl
  | cons z zs ih =>
    simp only [sortByDistance]
    rw [insertByDist_filter, ih]
    by_cases hzq : (distVal z == q) = true
    · simp [List.filter_cons, hzq]
    · simp [List.filter_cons, hzq]

/-- C3: the ranking pass annotates every zone with its distance, sorts
ascending (stably: for each key, the filtered subsequence equals the
input's), and takes the first `k`; its length is `min k (#zones)`, so it
never exceeds `k` and falls short of `k` exactly when fewer than `k`
zones exist. -/
theorem computeNearest_spec :
    ∀ (dist : ProcessedZone → ℚ) (zones : List ProcessedZone) (k : Nat),
      (computeNearest dist zones k).length = min k zones.length ∧
      List.Pairwise (fun a b => distVal a ≤ distVal b) (computeNearest dist zones k) ∧
      List.Perm (sortByDistance (zones.map (fun z => { z with distance := some (dist z) })))
        (zones.map (fun z => { z with distance := some (dist z) })) ∧
      computeNearest dist zones k
        = (sortByDistance (zones.map (fun z => { z with distance := some (dist z) }))).take k ∧
      ∀ q : ℚ,
        (sortByDistance (zones.map (fun z => { z with distance := some (dist z) }))).filter
          (fun x => distVal x == q)
        = (zones.map (fun z => { z with distance := some (dist z) })).filter
          (fun x => distVal x == q) := by
  intro dist zones k
  refine ⟨?_, ?_, sortByDistance_perm _, rfl, fun q => sortByDistance_filter q _⟩
  · simp only [computeNearest]
    rw [List.length_take, (sortByDistance_perm _).length_eq, List.length_map]
  · have hp := sortByDistance_pairwise
      (zones.map (fun z => { z with distance := some (dist z) }))
    exact List.Pairwise.sublist (List.take_sublist k _) hp

/-! ## Claim C5: throws are caught per comparison -/

/-- The inner scan treats a thrown geometry operation exactly as a
failed intersection test. -/
theorem scanFollowers_eq_total (check : Geometry → Geometry → Except Unit Bool)
    (anchorGeom : Geometry) :
    ∀ (scanned : List (Nat × ProcessedZone)) (processed : List Nat) (acc : ℚ),
      scanFollowers check anchorGeom scanned processed acc
        = scanFollowersT (fun g1 g2 => pairNoThrow (check g1 g2)) anchorGeom
            scanned processed acc := by
  intro scanned
  induction scanned with
  | nil => intro processed acc; rfl
  | cons p rest ih =>
    intro processed acc
    obtain ⟨j, zj⟩ := p
    by_cases hj : j ∈ processed
    · simp [scanFollowers, scanFollowersT, hj, ih]
    · cases hc : check anchorGeom zj.geometry with
      | ok b => cases b <;> simp [scanFollowers, scanFollowersT, hj, hc, pairNoThrow, ih]
      | error e => simp [scanFollowers, scanFollowersT, hj, hc, pairNoThrow, ih]

/-- The outer loop treats a thrown geometry operation exactly as a
failed intersection test. -/
theorem mergeLoop_eq_total (check : Geometry → Geometry → Except Unit Bool) (code : String) :
    ∀ (pending : List (Nat × ProcessedZone)) (processed : List Nat),
      mergeLoop check code pending processed
        = mergeLoopT (fun g1 g2 => pairNoThrow (check g1 g2)) code pending processed := by
  intro pending
  induction pending with
  | nil => intro processed; rfl
  | cons p rest ih =>
    intro processed
    obtain ⟨i, z⟩ := p
    by_cases hi : i ∈ processed
    · simp [mergeLoop, mergeLoopT, hi, ih]
    · simp [mergeLoop, mergeLoopT, hi, ih, scanFollowers_eq_total check z.geometry rest]

/-- C5: for any buffer/intersection oracles (including ones that throw),
the merge pass computes exactly what the throw-free pass computes when
each thrown pairwise comparison is replaced by "no intersection"
(`pairNoThrow` maps `.error` to `false` and is the identity on `.ok`
results).  In particular a throw is scoped to its single comparison, the
pass continues, and no exception escapes `mergeAreas`, which is total. -/
theorem mergeAreas_throw_is_no_intersection :
    (∀ (buffer : Geometry → Except Unit (Option Geometry))
        (bIntersects : Geometry → Geometry → Except Unit Bool)
        (areas : List ProcessedZone) (code : String),
      mergeAreas buffer bIntersects areas code
        = mergeAreasTotal
            (fun g1 g2 => pairNoThrow (proximityCheck buffer bIntersects g1 g2)) areas code) ∧
    (∀ e : Unit, pairNoThrow (Except.error e) = false) ∧
    (∀ b : Bool, pairNoThrow (Except.ok b) = b) := by
  refine ⟨?_, fun e => rfl, fun b => rfl⟩
  intro buffer bIntersects areas code
  simp only [mergeAreas, mergeAreasTotal]
  split
  · rfl
  · rw [mergeLoop_eq_total]

/-! ## Claim C6: the pipeline is a pure function of its input -/

/-- C6: running the classification-plus-merge pipeline twice on
identical input (same feature sequence, same oracles — the merge
threshold is fixed inside the buffer oracle) yields identical output:
the pass is a deterministic pure function of its input. -/
theorem processZones_deterministic
    (buffer : Geometry → Except Unit (Option Geometry))
    (bIntersects : Geometry → Geometry → Except Unit Bool)
    (fs fs' : List RawFeature) (h : fs = fs') :
    processZones buffer bIntersects fs = processZones buffer bIntersects fs' := by
  rw [h]

/-- Witness for `processZones_deterministic` at a concrete feature list. -/
theorem processZones_deterministic_witness :
    processZones okBuffer alwaysIntersects [featGroen]
      = processZones okBuffer alwaysIntersects [featGroen] :=
  processZones_deterministic okBuffer alwaysIntersects [featGroen] [featGroen] rfl

/-! ## Helper lemmas about `enumAreas`, `scanFollowersT`, `mergeLoopT` -/

theorem enumAreas_map_snd (n : Nat) (l : List ProcessedZone) :
    (enumAreas n l).map Prod.snd = l := by
  induction l generalizing n with
  | nil => rfl
  | cons z zs ih => simp [enumAreas, ih]

theorem enumAreas_fst_ge (n : Nat) (l : List ProcessedZone) :
    ∀ p ∈ enumAreas n l, n ≤ p.1 := by
  induction l generalizing n with
  | nil => intro p hp; simp [enumAreas] at hp
  | cons z zs ih =>
    intro p hp
    rcases List.mem_cons.mp hp with rfl | hp'
    · exact le_refl n
    · exact le_trans (Nat.le_succ n) (ih (n + 1) p hp')

theorem enumAreas_nodup_fst (n : Nat) (l : List ProcessedZone) :
    ((enumAreas n l).map Prod.fst).Nodup := by
  induction l generalizing n with
  | nil => simp [enumAreas]
  | cons z zs ih =>
    simp only [enumAreas, List.map_cons, List.nodup_cons]
    refine ⟨?_, ih (n + 1)⟩
    intro hmem
    rcases List.mem_map.mp hmem with ⟨p, hp, hfst⟩
    have := enumAreas_fst_ge (n + 1) zs p hp
    omega

theorem enumAreas_get_mem (n : Nat) (l : List ProcessedZone) (k : Nat) (hk : k < l.length) :
    (n + k, l.get ⟨k, hk⟩) ∈ enumAreas n l := by
  induction l generalizing n k with
  | nil => simp at hk
  | cons z zs ih =>
    cases k with
    | zero => simp [enumAreas]
    | succ m =>
      have hm : m < zs.length := by simpa using hk
      have h := ih (n + 1) m hm
      have he : n + (m + 1) = (n + 1) + m := by omega
      rw [List.get_cons_succ, he]
      exact List.mem_cons.mpr (Or.inr h)

theorem enumAreas_mem_get (n : Nat) (l : List ProcessedZone) :
    ∀ p ∈ enumAreas n l, ∃ k, ∃ hk : k < l.length, p = (n + k, l.get ⟨k, hk⟩) := by
  induction l generalizing n with
  | nil => intro p hp; simp [enumAreas] at hp
  | cons z zs ih =>
    intro p hp
    rcases List.mem_cons.mp hp with rfl | hp'
    · exact ⟨0, by simp, by simp⟩
    · rcases ih (n + 1) p hp' with ⟨k, hk, hpk⟩
      refine ⟨k + 1, by simpa using hk, ?_⟩
      rw [hpk]
      have he : (n + 1) + k = n + (k + 1) := by omega
      simp [he]

/-- Two pairs of an index-nodup list with the same index are equal. -/
theorem pair_eq_of_nodup_fst {l : List (Nat × ProcessedZone)} {a : Nat}
    {b c : ProcessedZone} (hnd : (l.map Prod.fst).Nodup)
    (h1 : (a, b) ∈ l) (h2 : (a, c) ∈ l) : b = c := by
  induction l with
  | nil => simp at h1
  | cons hd tl ih =>
    simp only [List.map_cons, List.nodup_cons] at hnd
    rcases List.mem_cons.mp h1 with rfl | h1'
    · rcases List.mem_cons.mp h2 with he | h2'
      · exact (congrArg Prod.snd he).symm
      · exact absurd (List.mem_map.mpr ⟨(a, c), h2', rfl⟩) hnd.1
    · rcases List.mem_cons.mp h2 with rfl | h2'
      · exact absurd (List.mem_map.mpr ⟨(a, b), h1', rfl⟩) hnd.1
      · exact ih hnd.2 h1' h2'

theorem scanT_claimed_check (test : Geometry → Geometry → Bool) (anchorGeom : Geometry) :
    ∀ (scanned : List (Nat × ProcessedZone)) (processed : List Nat) (acc : ℚ),
      ∀ p ∈ (scanFollowersT test anchorGeom scanned processed acc).1,
        test anchorGeom p.2.geometry = true := by
  intro scanned
  induction scanned with
  | nil => intro processed acc p hp; simp [scanFollowersT] at hp
  | cons hd rest ih =>
    intro processed acc p hp
    obtain ⟨j, zj⟩ := hd
    by_cases hj : j ∈ processed
    · simp only [scanFollowersT, if_pos hj] at hp
      exact ih processed acc p hp
    · by_cases hc : test anchorGeom zj.geometry = true
      · simp only [scanFollowersT, if_neg hj, if_pos hc] at hp
        rcases List.mem_cons.mp hp with rfl | hp'
        · exact hc
        · exact ih (j :: processed) (acc + zj.area.getD 0) p hp'
      · simp only [scanFollowersT, if_neg hj, if_neg hc] at hp
        exact ih processed acc p hp

theorem scanT_claimed_sublist (test : Geometry → Geometry → Bool) (anchorGeom : Geometry) :
    ∀ (scanned : List (Nat × ProcessedZone)) (processed : List Nat) (acc : ℚ),
      List.Sublist (scanFollowersT test anchorGeom scanned processed acc).1 scanned := by
  intro scanned
  induction scanned with
  | nil => intro processed acc; simp [scanFollowersT]
  | cons hd rest ih =>
    intro processed acc
    obtain ⟨j, zj⟩ := hd
    by_cases hj : j ∈ processed
    · simp only [scanFollowersT, if_pos hj]
      exact (ih processed acc).cons (j, zj)
    · by_cases hc : test anchorGeom zj.geometry = true
      · simp only [scanFollowersT, if_neg hj, if_pos hc]
        exact (ih (j :: processed) (acc + zj.area.getD 0)).cons₂ (j, zj)
      · simp only [scanFollowersT, if_neg hj, if_neg hc]
        exact (ih processed acc).cons (j, zj)

theorem scanT_processed_mem (test : Geometry → Geometry → Bool) (anchorGeom : Geometry) :
    ∀ (scanned : List (Nat × ProcessedZone)) (processed : List Nat) (acc : ℚ) (x : Nat),
      x ∈ (scanFollowersT test anchorGeom scanned processed acc).2.2 ↔
        x ∈ processed ∨
          x ∈ (scanFollowersT test anchorGeom scanned processed acc).1.map Prod.fst := by
  intro scanned
  induction scanned with
  | nil => intro processed acc x; simp [scanFollowersT]
  | cons hd rest ih =>
    intro processed acc x
    obtain ⟨j, zj⟩ := hd
    by_cases hj : j ∈ processed
    · simp only [scanFollowersT, if_pos hj]
      exact ih processed acc x
    · by_cases hc : test anchorGeom zj.geometry = true
      · simp only [scanFollowersT, if_neg hj, if_pos hc]
        rw [ih (j :: processed) (acc + zj.area.getD 0) x]
        simp only [List.mem_cons, List.map_cons]
        tauto
      · simp only [scanFollowersT, if_neg hj, if_neg hc]
        exact ih processed acc x

theorem scanT_claimed_not_processed (test : Geometry → Geometry → Bool)
    (anchorGeom : Geometry) :
    ∀ (scanned : List (Nat × ProcessedZone)) (processed : List Nat) (acc : ℚ) (x : Nat),
      x ∈ (scanFollowersT test anchorGeom scanned processed acc).1.map Prod.fst →
        x ∉ processed := by
  intro scanned
  induction scanned with
  | nil => intro processed acc x hx; simp [scanFollowersT] at hx
  | cons hd rest ih =>
    intro processed acc x hx
    obtain ⟨j, zj⟩ := hd
    by_cases hj : j ∈ processed
    · simp only [scanFollowersT, if_pos hj] at hx
      exact ih processed acc x hx
    · by_cases hc : test anchorGeom zj.geometry = true
      · simp only [scanFollowersT, if_neg hj, if_pos hc, List.map_cons,
          List.mem_cons] at hx
        rcases hx with rfl | hx'
        · exact hj
        · intro hxp
          exact ih (j :: processed) (acc + zj.area.getD 0) x hx'
            (List.mem_cons.mpr (Or.inr hxp))
      · simp only [scanFollowersT, if_neg hj, if_neg hc] at hx
        exact ih processed acc x hx

theorem scanT_acc (test : Geometry → Geometry → Bool) (anchorGeom : Geometry) :
    ∀ (scanned : List (Nat × ProcessedZone)) (processed : List Nat) (acc : ℚ),
      (scanFollowersT test anchorGeom scanned processed acc).2.1
        = acc + ((scanFollowersT test anchorGeom scanned processed acc).1.map
            (fun p => p.2.area.getD 0)).sum := by
  intro scanned
  induction scanned with
  | nil => intro processed acc; simp [scanFollowersT]
  | cons hd rest ih =>
    intro processed acc
    obtain ⟨j, zj⟩ := hd
    by_cases hj : j ∈ processed
    · simp only [scanFollowersT, if_pos hj]
      exact ih processed acc
    · by_cases hc : test anchorGeom zj.geometry = true
      · simp only [scanFollowersT, if_neg hj, if_pos hc, List.map_cons, List.sum_cons]
        rw [ih (j :: processed) (acc + zj.area.getD 0)]
        ring
      · simp only [scanFollowersT, if_neg hj, if_neg hc]
        exact ih processed acc

theorem scanT_none (test : Geometry → Geometry → Bool) (anchorGeom : Geometry) :
    ∀ (scanned : List (Nat × ProcessedZone)) (processed : List Nat) (acc : ℚ),
      (∀ p ∈ scanned, p.1 ∈ processed ∨ test anchorGeom p.2.geometry = false) →
      scanFollowersT test anchorGeom scanned processed acc = ([], acc, processed) := by
  intro scanned
  induction scanned with
  | nil => intro processed acc _; rfl
  | cons hd rest ih =>
    intro processed acc h
    obtain ⟨j, zj⟩ := hd
    by_cases hj : j ∈ processed
    · simp only [scanFollowersT, if_pos hj]
      exact ih processed acc (fun p hp => h p (List.mem_cons.mpr (Or.inr hp)))
    · have hc : test anchorGeom zj.geometry = false := by
        rcases h (j, zj) (List.mem_cons.mpr (Or.inl rfl)) with h' | h'
        · exact absurd h' hj
        · exact h'
      have hc' : ¬ test anchorGeom zj.geometry = true := by simp [hc]
      simp only [scanFollowersT, if_neg hj, if_neg hc']
      exact ih processed acc (fun p hp => h p (List.mem_cons.mpr (Or.inr hp)))

theorem scanT_filter_perm (test : Geometry → Geometry → Bool) (anchorGeom : Geometry) :
    ∀ (scanned : List (Nat × ProcessedZone)) (processed : List Nat) (acc : ℚ),
      (scanned.map Prod.fst).Nodup →
      List.Perm (scanned.filter (fun p => p.1 ∉ processed))
        ((scanFollowersT test anchorGeom scanned processed acc).1 ++
          scanned.filter (fun p =>
            p.1 ∉ (scanFollowersT test anchorGeom scanned processed acc).2.2)) := by
  intro scanned
  induction scanned with
  | nil => intro processed acc _; simp [scanFollowersT]
  | cons hd rest ih =>
    intro processed acc hnd
    obtain ⟨j, zj⟩ := hd
    simp only [List.map_cons, List.nodup_cons] at hnd
    obtain ⟨hnd1, hnd2⟩ := hnd
    by_cases hj : j ∈ processed
    · simp only [scanFollowersT, if_pos hj]
      have hjP : j ∈ (scanFollowersT test anchorGeom rest processed acc).2.2 :=
        (scanT_processed_mem test anchorGeom rest processed acc j).mpr (Or.inl hj)
      simp only [List.filter_cons]
      have d1 : (decide (j ∉ processed)) = false := by simp [hj]
      have d2 : (decide (j ∉ (scanFollowersT test anchorGeom rest processed acc).2.2))
          = false := by simp [hjP]
      rw [d1, d2]
      simp only [Bool.false_eq_true, if_false]
      exact ih processed acc hnd2
    · by_cases hc : test anchorGeom zj.geometry = true
      · simp only [scanFollowersT, if_neg hj, if_pos hc]
        have hjP : j ∈ (scanFollowersT test anchorGeom rest (j :: processed)
            (acc + zj.area.getD 0)).2.2 :=
          (scanT_processed_mem test anchorGeom rest (j :: processed) _ j).mpr
            (Or.inl (List.mem_cons.mpr (Or.inl rfl)))
        simp only [List.filter_cons]
        have d1 : (decide (j ∉ processed)) = true := by simp [hj]
        have d2 : (decide (j ∉ (scanFollowersT test anchorGeom rest (j :: processed)
            (acc + zj.area.getD 0)).2.2)) = false := by simp [hjP]
        rw [d1, d2]
        simp only [if_true, Bool.false_eq_true, if_false, List.cons_append]
        refine List.Perm.cons (j, zj) ?_
        have hcong : rest.filter (fun p => p.1 ∉ processed)
            = rest.filter (fun p => p.1 ∉ j :: processed) := by
          apply List.filter_congr
          intro p hp
          have hne : p.1 ≠ j := fun he => hnd1 (he ▸ List.mem_map.mpr ⟨p, hp, rfl⟩)
          simp [List.mem_cons, hne]
        rw [hcong]
        exact ih (j :: processed) (acc + zj.area.getD 0) hnd2
      · simp only [scanFollowersT, if_neg hj, if_neg hc]
        have hjc : j ∉ (scanFollowersT test anchorGeom rest processed acc).1.map Prod.fst :=
          fun hmem =>
            hnd1 ((List.Sublist.map Prod.fst
              (scanT_claimed_sublist test anchorGeom rest processed acc)).subset hmem)
        have hjP : j ∉ (scanFollowersT test anchorGeom rest processed acc).2.2 := by
          intro hP
          rcases (scanT_processed_mem test anchorGeom rest processed acc j).mp hP with
            h' | h'
          · exact hj h'
          · exact hjc h'
        simp only [List.filter_cons]
        have d1 : (decide (j ∉ processed)) = true := by simp [hj]
        have d2 : (decide (j ∉ (scanFollowersT test anchorGeom rest processed acc).2.2))
            = true := by simp [hjP]
        rw [d1, d2]
        simp only [if_true]
        refine List.Perm.trans (List.Perm.cons (j, zj) (ih processed acc hnd2)) ?_
        exact List.perm_middle.symm

/-- The merge with oracles equals the throw-free merge with the
totalized pairwise test. -/
theorem mergeAreas_eq_total (buffer : Geometry → Except Unit (Option Geometry))
    (bIntersects : Geometry → Geometry → Except Unit Bool)
    (areas : List ProcessedZone) (code : String) :
    mergeAreas buffer bIntersects areas code
      = mergeAreasTotal
          (fun g1 g2 => pairNoThrow (proximityCheck buffer bIntersects g1 g2)) areas code := by
  simp only [mergeAreas, mergeAreasTotal]
  split
  · rfl
  · rw [mergeLoop_eq_total]

/-- The area value of every emitted zone is the sum of its group
members' area values. -/
theorem mergeLoopT_group_area (test : Geometry → Geometry → Bool) (code : String) :
    ∀ (pending : List (Nat × ProcessedZone)) (processed : List Nat),
      ∀ g ∈ mergeLoopT test code pending processed,
        g.2.area.getD 0 = (g.1.map (fun p => p.2.area.getD 0)).sum := by
  intro pending
  induction pending with
  | nil => intro processed g hg; simp [mergeLoopT] at hg
  | cons hd rest ih =>
    intro processed g hg
    obtain ⟨i, z⟩ := hd
    by_cases hi : i ∈ processed
    · simp only [mergeLoopT, if_pos hi] at hg
      exact ih processed g hg
    · simp only [mergeLoopT, if_neg hi] at hg
      by_cases he :
          (scanFollowersT test z.geometry rest (i :: processed) (z.area.getD 0)).1.isEmpty
            = true
      · rw [if_pos he] at hg
        rcases List.mem_cons.mp hg with rfl | hg'
        · have hnil : (scanFollowersT test z.geometry rest (i :: processed)
              (z.area.getD 0)).1 = [] := List.isEmpty_iff.mp he
          simp [hnil]
        · exact ih _ g hg'
      · rw [if_neg he] at hg
        rcases List.mem_cons.mp hg with rfl | hg'
        · have hacc := scanT_acc test z.geometry rest (i :: processed) (z.area.getD 0)
          cases hgc : getCentroid (some z.geometry) <;>
            simp [hgc, List.sum_cons, hacc]
        · exact ih _ g hg'

/-- Partition: the groups' members are exactly the unclaimed pending
pairs (as a permutation). -/
theorem mergeLoopT_flatten_perm (test : Geometry → Geometry → Bool) (code : String) :
    ∀ (pending : List (Nat × ProcessedZone)) (processed : List Nat),
      (pending.map Prod.fst).Nodup →
      List.Perm (((mergeLoopT test code pending processed).map (fun g => g.1)).flatten)
        (pending.filter (fun p => p.1 ∉ processed)) := by
  intro pending
  induction pending with
  | nil => intro processed _; simp [mergeLoopT]
  | cons hd rest ih =>
    intro processed hnd
    obtain ⟨i, z⟩ := hd
    simp only [List.map_cons, List.nodup_cons] at hnd
    obtain ⟨hnd1, hnd2⟩ := hnd
    by_cases hi : i ∈ processed
    · simp only [mergeLoopT, if_pos hi, List.filter_cons]
      have d1 : (decide (i ∉ processed)) = false := by simp [hi]
      rw [d1]
      simp only [Bool.false_eq_true, if_false]
      exact ih processed hnd2
    · simp only [mergeLoopT, if_neg hi, List.filter_cons]
      have d1 : (decide (i ∉ processed)) = true := by simp [hi]
      rw [d1]
      simp only [if_true]
      have hcong : rest.filter (fun p => p.1 ∉ processed)
          = rest.filter (fun p => p.1 ∉ i :: processed) := by
        apply List.filter_congr
        intro p hp
        have hne : p.1 ≠ i := fun heq => hnd1 (heq ▸ List.mem_map.mpr ⟨p, hp, rfl⟩)
        simp [List.mem_cons, hne]
      have hperm := scanT_filter_perm test z.geometry rest (i :: processed)
        (z.area.getD 0) hnd2
      have hih := ih (scanFollowersT test z.geometry rest (i :: processed)
        (z.area.getD 0)).2.2 hnd2
      by_cases he :
          (scanFollowersT test z.geometry rest (i :: processed) (z.area.getD 0)).1.isEmpty
            = true
      · rw [if_pos he]
        have hnil : (scanFollowersT test z.geometry rest (i :: processed)
            (z.area.getD 0)).1 = [] := List.isEmpty_iff.mp he
        rw [hnil] at hperm
        simp only [List.nil_append] at hperm
        simp only [List.map_cons, List.flatten_cons, hnil, List.cons_append,
          List.nil_append]
        refine List.Perm.cons (i, z) ?_
        rw [hcong]
        exact hih.trans hperm.symm
      · rw [if_neg he]
        simp only [List.map_cons, List.flatten_cons, List.cons_append]
        refine List.Perm.cons (i, z) ?_
        refine (List.Perm.append_left _ hih).trans ?_
        rw [hcong]
        exact hperm.symm

/-- Conservation: the emitted zones' area values sum to the area values
of the unclaimed pending zones. -/
theorem mergeLoopT_sum (test : Geometry → Geometry → Bool) (code : String) :
    ∀ (pending : List (Nat × ProcessedZone)) (processed : List Nat),
      (pending.map Prod.fst).Nodup →
      (((mergeLoopT test code pending processed).map (fun g => g.2)).map
          (fun z => z.area.getD 0)).sum
        = ((pending.filter (fun p => p.1 ∉ processed)).map
            (fun p => p.2.area.getD 0)).sum := by
  intro pending
  induction pending with
  | nil => intro processed _; simp [mergeLoopT]
  | cons hd rest ih =>
    intro processed hnd
    obtain ⟨i, z⟩ := hd
    simp only [List.map_cons, List.nodup_cons] at hnd
    obtain ⟨hnd1, hnd2⟩ := hnd
    by_cases hi : i ∈ processed
    · simp only [mergeLoopT, if_pos hi, List.filter_cons]
      have d1 : (decide (i ∉ processed)) = false := by simp [hi]
      rw [d1]
      simp only [Bool.false_eq_true, if_false]
      exact ih processed hnd2
    · simp only [mergeLoopT, if_neg hi, List.filter_cons]
      have d1 : (decide (i ∉ processed)) = true := by simp [hi]
      rw [d1]
      simp only [if_true]
      have hcong : rest.filter (fun p => p.1 ∉ processed)
          = rest.filter (fun p => p.1 ∉ i :: processed) := by
        apply List.filter_congr
        intro p hp
        have hne : p.1 ≠ i := fun heq => hnd1 (heq ▸ List.mem_map.mpr ⟨p, hp, rfl⟩)
        simp [List.mem_cons, hne]
      have hsums : ((rest.filter (fun p => p.1 ∉ i :: processed)).map
            (fun p => p.2.area.getD 0)).sum
          = (((scanFollowersT test z.geometry rest (i :: processed)
              (z.area.getD 0)).1.map (fun p => p.2.area.getD 0)).sum)
            + ((rest.filter (fun p =>
                p.1 ∉ (scanFollowersT test z.geometry rest (i :: processed)
                  (z.area.getD 0)).2.2)).map (fun p => p.2.area.getD 0)).sum := by
        have hperm := scanT_filter_perm test z.geometry rest (i :: processed)
          (z.area.getD 0) hnd2
        have := (hperm.map (fun p => p.2.area.getD 0)).sum_eq
        rw [this, List.map_append, List.sum_append]
      have hih := ih (scanFollowersT test z.geometry rest (i :: processed)
        (z.area.getD 0)).2.2 hnd2
      by_cases he :
          (scanFollowersT test z.geometry rest (i :: processed) (z.area.getD 0)).1.isEmpty
            = true
      · rw [if_pos he]
        have hnil : (scanFollowersT test z.geometry rest (i :: processed)
            (z.area.getD 0)).1 = [] := List.isEmpty_iff.mp he
        simp only [List.map_cons, List.sum_cons]
        rw [hih, hcong, hsums, hnil]
        simp
      · rw [if_neg he]
        have hacc := scanT_acc test z.geometry rest (i :: processed) (z.area.getD 0)
        simp only [List.map_cons, List.sum_cons]
        rw [hih, hcong, hsums]
        cases hgc : getCentroid (some z.geometry) <;> simp [hgc, hacc] <;> ring

/-- An unclaimed pending zone that the pairwise test relates to no other
pending zone (in either direction) is emitted unchanged. -/
theorem mergeLoopT_isolated (test : Geometry → Geometry → Bool) (code : String) :
    ∀ (pending : List (Nat × ProcessedZone)) (processed : List Nat)
      (m : Nat) (z : ProcessedZone),
      (pending.map Prod.fst).Nodup →
      (m, z) ∈ pending → m ∉ processed →
      (∀ p ∈ pending, p.1 ≠ m →
        test z.geometry p.2.geometry = false ∧ test p.2.geometry z.geometry = false) →
      z ∈ (mergeLoopT test code pending processed).map (fun g => g.2) := by
  intro pending
  induction pending with
  | nil => intro processed m z _ hmem; simp at hmem
  | cons hd rest ih =>
    intro processed m z hnd hmem hproc hfar
    obtain ⟨i, w⟩ := hd
    simp only [List.map_cons, List.nodup_cons] at hnd
    obtain ⟨hnd1, hnd2⟩ := hnd
    rcases List.mem_cons.mp hmem with heq | hmem'
    · injection heq with h1 h2
      subst h1
      subst h2
      simp only [mergeLoopT, if_neg hproc]
      have hskip : ∀ p ∈ rest, p.1 ∈ m :: processed ∨ test z.geometry p.2.geometry = false := by
        intro p hp
        have hne : p.1 ≠ m := fun heq => hnd1 (heq ▸ List.mem_map.mpr ⟨p, hp, rfl⟩)
        exact Or.inr (hfar p (List.mem_cons_of_mem _ hp) hne).1
      rw [scanT_none test z.geometry rest (m :: processed) (z.area.getD 0) hskip]
      simp [List.mem_cons]
    · by_cases hi : i ∈ processed
      · simp only [mergeLoopT, if_pos hi]
        exact ih processed m z hnd2 hmem' hproc
          (fun p hp hne => hfar p (List.mem_cons_of_mem _ hp) hne)
      · have hine : i ≠ m := by
          intro heq
          exact hnd1 (heq ▸ List.mem_map.mpr ⟨(m, z), hmem', rfl⟩)
        simp only [mergeLoopT, if_neg hi]
        have hmc : m ∉ (scanFollowersT test w.geometry rest (i :: processed)
            (w.area.getD 0)).1.map Prod.fst := by
          intro hmm
          rcases List.mem_map.mp hmm with ⟨p, hpR, hpfst⟩
          have hpRest : p ∈ rest :=
            (scanT_claimed_sublist test w.geometry rest (i :: processed)
              (w.area.getD 0)).subset hpR
          have h1 : (m, p.2) ∈ rest := by
            rw [← hpfst]
            exact hpRest
          have hz : p.2 = z := pair_eq_of_nodup_fst hnd2 h1 hmem'
          have hchk := scanT_claimed_check test w.geometry rest (i :: processed)
            (w.area.getD 0) p hpR
          have hwz := (hfar (i, w) (List.mem_cons.mpr (Or.inl rfl)) hine).2
          rw [hz] at hchk
          rw [hchk] at hwz
          exact Bool.noConfusion hwz
        have hmP : m ∉ (scanFollowersT test w.geometry rest (i :: processed)
            (w.area.getD 0)).2.2 := by
          intro hP
          rcases (scanT_processed_mem test w.geometry rest (i :: processed)
            (w.area.getD 0) m).mp hP with h' | h'
          · rcases List.mem_cons.mp h' with heq | h''
            · exact hine heq.symm
            · exact hproc h''
          · exact hmc h'
        have hrec := ih (scanFollowersT test w.geometry rest (i :: processed)
          (w.area.getD 0)).2.2 m z hnd2 hmem' hmP
          (fun p hp hne => hfar p (List.mem_cons_of_mem _ hp) hne)
        by_cases he :
            (scanFollowersT test w.geometry rest (i :: processed)
              (w.area.getD 0)).1.isEmpty = true
        · rw [if_pos he]
          simp only [List.map_cons, List.mem_cons]
          exact Or.inr hrec
        · rw [if_neg he]
          simp only [List.map_cons, List.mem_cons]
          exact Or.inr hrec

theorem enumAreas_map_fst (n : Nat) (l : List ProcessedZone) :
    (enumAreas n l).map Prod.fst = List.range' n l.length := by
  induction l generalizing n with
  | nil => rfl
  | cons z zs ih => simp [enumAreas, ih, List.range'_succ]

theorem enumAreas_length (n : Nat) (l : List ProcessedZone) :
    (enumAreas n l).length = l.length := by
  induction l generalizing n with
  | nil => rfl
  | cons z zs ih => simp [enumAreas, ih]

theorem flatten_map_singleton (l : List (Nat × ProcessedZone)) :
    (l.map (fun p => [p])).flatten = l := by
  induction l with
  | nil => rfl
  | cons a t ih => simp [ih]

/-! ## Claim C10: the merge partitions its input and conserves area -/

/-- C10: for every oracle pair, input list, and category: (1) the sum of
the `area` fields (taking a missing area as 0) over the merge output
equals the sum over the input zones of that category — total area is
conserved; (2) the merge groups partition the input: the concatenation
of all group index lists is a permutation of `range n` (`n` = number of
same-category input zones), so every input zone is claimed by exactly
one group; (3) each group produces exactly one output zone. -/
theorem mergeAreas_partition_and_conservation :
    ∀ (buffer : Geometry → Except Unit (Option Geometry))
      (bIntersects : Geometry → Geometry → Except Unit Bool)
      (areas : List ProcessedZone) (code : String),
      ((mergeAreas buffer bIntersects areas code).map (fun z => z.area.getD 0)).sum
        = ((areas.filter (fun z => z.properties.CODE == code)).map
            (fun z => z.area.getD 0)).sum ∧
      List.Perm ((mergeGroups buffer bIntersects areas code).flatten.map Prod.fst)
        (List.range (areas.filter (fun z => z.properties.CODE == code)).length) ∧
      (mergeAreas buffer bIntersects areas code).length
        = (mergeGroups buffer bIntersects areas code).length := by
  intro buffer bIntersects areas code
  have hnd := enumAreas_nodup_fst 0 (areas.filter (fun z => z.properties.CODE == code))
  have hfl : (enumAreas 0 (areas.filter (fun z => z.properties.CODE == code))).filter
      (fun p => p.1 ∉ ([] : List Nat))
      = enumAreas 0 (areas.filter (fun z => z.properties.CODE == code)) :=
    List.filter_eq_self.mpr (fun a _ => by simp)
  refine ⟨?_, ?_, ?_⟩
  · simp only [mergeAreas]
    split
    · rfl
    · rw [mergeLoop_eq_total, mergeLoopT_sum _ code _ [] hnd, hfl]
      have hmaps : (enumAreas 0 (areas.filter (fun z => z.properties.CODE == code))).map
          (fun p => p.2.area.getD 0)
          = (areas.filter (fun z => z.properties.CODE == code)).map
              (fun z => z.area.getD 0) := by
        rw [show (fun p : Nat × ProcessedZone => p.2.area.getD 0)
            = (fun z : ProcessedZone => z.area.getD 0) ∘ Prod.snd from rfl,
          ← List.map_map, enumAreas_map_snd]
      rw [hmaps]
  · simp only [mergeGroups]
    split
    · rw [flatten_map_singleton, enumAreas_map_fst, List.range_eq_range']
    · rw [mergeLoop_eq_total]
      have hperm := mergeLoopT_flatten_perm
        (fun g1 g2 => pairNoThrow (proximityCheck buffer bIntersects g1 g2)) code
        (enumAreas 0 (areas.filter (fun z => z.properties.CODE == code))) [] hnd
      rw [hfl] at hperm
      have := hperm.map Prod.fst
      rw [enumAreas_map_fst, ← List.range_eq_range'] at this
      exact this
  · simp only [mergeAreas, mergeGroups]
    split
    · rw [List.length_map, enumAreas_length]
    · rw [List.length_map, List.length_map]

/-! ## Claim C4: an isolated zone passes through unchanged -/

/-- C4: an AREA zone of the filtered category list whose pairwise
proximity test (buffered by half the merge threshold on each side, with
throws treated as no intersection) fails against every other zone of its
category, in both directions, is emitted by the merge pass as the very
same record — id, kind, area, geometry, and centroid unchanged. -/
theorem mergeAreas_isolated_zone_unchanged
    (buffer : Geometry → Except Unit (Option Geometry))
    (bIntersects : Geometry → Geometry → Except Unit Bool)
    (areas : List ProcessedZone) (code : String) (m : Nat)
    (hm : m < (areas.filter (fun z => z.properties.CODE == code)).length)
    (hfar : ∀ (k : Nat) (hk : k < (areas.filter (fun z => z.properties.CODE == code)).length),
      k ≠ m →
      pairNoThrow (proximityCheck buffer bIntersects
        ((areas.filter (fun z => z.properties.CODE == code)).get ⟨m, hm⟩).geometry
        ((areas.filter (fun z => z.properties.CODE == code)).get ⟨k, hk⟩).geometry) = false ∧
      pairNoThrow (proximityCheck buffer bIntersects
        ((areas.filter (fun z => z.properties.CODE == code)).get ⟨k, hk⟩).geometry
        ((areas.filter (fun z => z.properties.CODE == code)).get ⟨m, hm⟩).geometry) = false) :
    (areas.filter (fun z => z.properties.CODE == code)).get ⟨m, hm⟩
      ∈ mergeAreas buffer bIntersects areas code := by
  by_cases h2 : (areas.filter (fun z => z.properties.CODE == code)).length < 2
  · simp only [mergeAreas, if_pos h2]
    exact List.get_mem _ _ hm
  · simp only [mergeAreas, if_neg h2]
    rw [mergeLoop_eq_total]
    apply mergeLoopT_isolated _ code _ [] m _ (enumAreas_nodup_fst 0 _) ?_ (by simp) ?_
    · have h := enumAreas_get_mem 0 (areas.filter (fun z => z.properties.CODE == code)) m hm
      simpa using h
    · intro p hp hne
      rcases enumAreas_mem_get 0 _ p hp with ⟨k, hk, rfl⟩
      have hkm : k ≠ m := by simpa using hne
      have h := hfar k hk hkm
      exact ⟨h.1, h.2⟩

/-- Witness for `mergeAreas_isolated_zone_unchanged`: with an
intersection oracle that never fires, the first of two far-apart GROEN
zones is emitted unchanged. -/
theorem mergeAreas_isolated_zone_unchanged_witness :
    zIso0 ∈ mergeAreas okBuffer neverIntersects [zIso0, zIso1] "GROEN" := by
  have h := mergeAreas_isolated_zone_unchanged okBuffer neverIntersects [zIso0, zIso1]
    "GROEN" 0 (by decide) (by decide)
  exact h

/-! ## Claim C1: merging of buffered-intersecting same-category pairs -/

/-- C1 (amended): when the input's zones of category `code` are exactly
the two AREA zones `z0, z1` (in that order) and their buffered
geometries intersect, the merge pass outputs the single MergedZone built
from the anchor `z0`: its id carries the merge marker with the category
and the anchor index 0, its area is the sum of the two constituent
areas, and its geometry and centroid are the anchor's (the hypothesis
`hc` states the anchor's stored centroid is the one its geometry
yields, which holds for every classifier-produced zone).  Moreover — in
general — the pass's output depends only on the input zones of its own
category, so two AREA zones of different categories are never merged,
regardless of distance.  (The claim's original universal form — every
buffered-intersecting same-category pair ends up in one MergedZone — is
refuted by `mergeAreas_chain_counterexample`.) -/
theorem mergeAreas_pair_merge
    (buffer : Geometry → Except Unit (Option Geometry))
    (bIntersects : Geometry → Geometry → Except Unit Bool)
    (areas : List ProcessedZone) (code : String)
    (z0 z1 : ProcessedZone) (a0 a1 : ℚ)
    (hfilt : areas.filter (fun z => z.properties.CODE == code) = [z0, z1])
    (hnear : proximityCheck buffer bIntersects z0.geometry z1.geometry = Except.ok true)
    (hc : getCentroid (some z0.geometry) = some z0.centroid)
    (ha0 : z0.area = some a0) (ha1 : z1.area = some a1) :
    mergeAreas buffer bIntersects areas code
      = [{ z0 with id := mergedZoneId code 0, area := some (a0 + a1) }] ∧
    (∀ (buffer' : Geometry → Except Unit (Option Geometry))
        (bIntersects' : Geometry → Geometry → Except Unit Bool)
        (areas' : List ProcessedZone) (code' : String),
      mergeAreas buffer' bIntersects' areas' code'
        = mergeAreas buffer' bIntersects'
            (areas'.filter (fun z => z.properties.CODE == code')) code') := by
  constructor
  · simp only [mergeAreas, hfilt]
    rw [if_neg (by simp)]
    simp only [enumAreas, mergeLoop, scanFollowers, hnear, hc, ha0, ha1]
    norm_num
  · intro buffer' bIntersects' areas' code'
    have hff : (areas'.filter (fun z => z.properties.CODE == code')).filter
        (fun z => z.properties.CODE == code')
        = areas'.filter (fun z => z.properties.CODE == code') :=
      List.filter_eq_self.mpr (fun a ha => (List.mem_filter.mp ha).2)
    simp only [mergeAreas, hff]

/-- Witness for `mergeAreas_pair_merge`: two concrete nearby GROEN zones
with areas 100 and 200 merge into `merged_GROEN_0` with area `100 + 200`. -/
theorem mergeAreas_pair_merge_witness :
    mergeAreas okBuffer alwaysIntersects [zPair0, zPair1] "GROEN"
      = [{ zPair0 with id := mergedZoneId "GROEN" 0, area := some (100 + 200) }] :=
  (mergeAreas_pair_merge okBuffer alwaysIntersects [zPair0, zPair1] "GROEN"
    zPair0 zPair1 100 200 rfl rfl rfl rfl rfl).1

/-- C1 counterexample: the universal pairwise claim fails on a chain of
three same-category zones A, B, C where A–B and B–C are within the merge
threshold but A–C is not.  B and C are AREA zones of the same category
whose buffered geometries intersect (`pairNoThrow … = true`), yet the
pass puts them in different output zones: B is absorbed into the group
anchored at A (the merged zone `merged_GROEN_0`, area `10 + 20`,
excluding C's area 40), while C is emitted unchanged, because B was
already claimed when C was scanned against anchor A and the anchor
test A–C fails. -/
theorem mergeAreas_chain_counterexample :
    pairNoThrow (proximityCheck okBuffer chainIntersects
      zChainB.geometry zChainC.geometry) = true ∧
    zChainB.properties.CODE = zChainC.properties.CODE ∧
    mergeAreas okBuffer chainIntersects [zChainA, zChainB, zChainC] "GROEN"
      = [{ zChainA with id := mergedZoneId "GROEN" 0, area := some (10 + 20) }, zChainC] ∧
    mergedZoneId "GROEN" 0 = "merged_GROEN_0" ∧
    zChainC.id = "zone_2" :=
  ⟨rfl, rfl, rfl, by decide, rfl⟩

end DogZones
